import Mathlib

/-!
# Verification of the ats-papers scraping and reconciliation pipeline

Shallow embedding of the core logic of the `ats-papers` repository:

* `src/data/scrape_dataset.py` — metadata listing crawl, document link
  construction, idempotent document fetch, batch driver;
* `src/data/make_document_dataset.py` — filename parsing back into
  artifact attributes;
* `src/features/add_document_features.py` — the metadata reconciliation
  filter chain (`get_best_matching_metadata`);
* `src/data/scrape_measures_dataset.py` — the measure page scraper.

Python dicts holding paper metadata are embedded as the structure
`CanonicalRecord`; Python `None` becomes `Option`; Python exceptions
become `Except`; the network is an explicit oracle function from request
to transport outcome; the output directory is the list of filenames it
contains.
-/

/-! ## Python value model

`get_doc_df` stores `paper_revision` either as the int `0` (no `_rev`
segment) or as the *string* of digits extracted from the `rev` segment.
Python `==` between an `int` and a `str` is `False`; `PyVal` and `pyEq`
model exactly that. -/

/-- A Python scalar that is either an `int` or a `str`. -/
inductive PyVal where
  | intv (n : Int)
  | strv (s : String)
deriving DecidableEq, Repr

/-- Python `==` on such scalars: cross-type comparison is `False`. -/
def pyEq : PyVal → PyVal → Bool
  | PyVal.intv a, PyVal.intv b => a == b
  | PyVal.strv a, PyVal.strv b => a == b
  | _, _ => false

/-! ## String helpers mirroring the Python primitives used by the code -/

/-- `leadsWith n h` is true when the char list `n` is an initial segment
of `h` (the test Python substring search performs at each offset). -/
def leadsWith : List Char → List Char → Bool
  | [], _ => true
  | _ :: _, [] => false
  | a :: n, b :: h => a == b && leadsWith n h

/-- `hasSub n h`: the char list `n` occurs contiguously inside `h`
(Python `n in h` on strings). -/
def hasSub (n : List Char) : List Char → Bool
  | [] => leadsWith n []
  | c :: h => leadsWith n (c :: h) || hasSub n h

/-- Python `needle in hay` substring containment. -/
def strContains (hay needle : String) : Bool :=
  hasSub needle.toList hay.toList

/-- Python `s.lstrip("0")`: drop every leading `'0'`. -/
def stripLeadingZeros (s : String) : String :=
  String.mk (s.toList.dropWhile (fun c => c == '0'))

/-- Python `s.zfill(w)`: left-pad with `'0'` to width `w`, keeping a
leading sign in front of the padding. -/
def zfill (s : String) (w : Nat) : String :=
  if s.length ≥ w then s
  else
    match s.toList with
    | [] => String.mk (List.replicate w '0')
    | c :: rest =>
      if c == '-' || c == '+' then
        String.mk (c :: (List.replicate (w - s.length) '0' ++ rest))
      else
        String.mk (List.replicate (w - s.length) '0' ++ (c :: rest))

/-- Split a char list at every occurrence of `sep` (Python
`s.split(sep)` for the single-character separators `'_'`, `'.'`, `'/'`
the code uses); always returns a non-empty list of chunks. -/
def splitOnChar (sep : Char) : List Char → List (List Char)
  | [] => [[]]
  | c :: rest =>
    let r := splitOnChar sep rest
    if c == sep then [] :: r
    else
      match r with
      | h :: t => (c :: h) :: t
      | [] => [[c]]

/-- Python `s.split(sep)` for a one-character separator, on strings. -/
def splitOnStr (s : String) (sep : Char) : List String :=
  (splitOnChar sep s.toList).map String.mk

/-- First maximal run of non-digit characters in `s`
(Python `re.findall(r'\D+|$', s)[0]`: empty when `s` is all digits). -/
def firstNonDigitRun (s : String) : String :=
  String.mk ((s.toList.dropWhile Char.isDigit).takeWhile (fun c => !c.isDigit))

/-- First maximal run of digit characters in `s`
(Python `re.findall(r'\d+|$', s)[0]`: empty when `s` has no digit). -/
def firstDigitRun (s : String) : String :=
  String.mk ((s.toList.dropWhile (fun c => !c.isDigit)).takeWhile Char.isDigit)

/-! ## Data model -/

/-- One working-paper metadata dict as produced by the listing crawl.
Field names follow the JSON keys (`Type` is spelled `Type'` because
`Type` is a Lean keyword). Only the fields the embedded code reads are
modelled. -/
structure CanonicalRecord where
  Paper_id : Int
  Name : String
  Meeting_type : String
  Meeting_number : String
  Abbreviation : String
  Number : Int
  Revision : Int
  Type' : String
deriving DecidableEq, Repr

/-- One row of the raw-document dataframe built by
`make_document_dataset.get_doc_df` (the `raw_text` column is irrelevant
to reconciliation and omitted). -/
structure DocumentRow where
  filename : String
  extension : String
  meeting : String
  paper_type_abbreviation : String
  paper_number : String
  paper_revision : PyVal
  paper_language_abbreviation : String
deriving DecidableEq, Repr

/-! ## UrlResolver: filename and link construction -/

/-- `add_document_features.get_fnames_from_meta_dict`: the four
per-language filenames derivable from a record; the `rev` token is
joined in only when `Revision > 0` (and Python `'_'.join` drops falsy,
i.e. empty, components). -/
def getFnamesFromMetaDict (wp : CanonicalRecord) : List String :=
  let meeting := wp.Meeting_type ++ wp.Meeting_number
  let pnum := wp.Abbreviation ++ zfill (toString wp.Number) 3
  let revision : Option String :=
    if wp.Revision > 0 then some ("rev" ++ toString wp.Revision) else none
  ["e", "s", "f", "r"].map (fun country =>
    let parts := ([some meeting, some pnum, revision, some country].filterMap id).filter
      (fun x => x ≠ "")
    String.intercalate "_" parts ++ "." ++ wp.Type')

/-- `scrape_dataset.construct_document_links`: the four per-language
document URLs for a record. -/
def constructDocumentLinks (wp : CanonicalRecord) : List String :=
  let meeting := wp.Meeting_type ++ wp.Meeting_number
  let base := "https://documents.ats.aq/" ++ meeting ++ "/" ++ wp.Abbreviation
  let pnum := wp.Abbreviation ++ zfill (toString wp.Number) 3
  let revision : Option String :=
    if wp.Revision > 0 then some ("rev" ++ toString wp.Revision) else none
  ["e", "s", "f", "r"].map (fun country =>
    let parts := ([some meeting, some pnum, revision, some country].filterMap id).filter
      (fun x => x ≠ "")
    let fname := String.intercalate "_" parts ++ "." ++ wp.Type'
    base ++ "/" ++ fname)

/-- `scrape_dataset.construct_document_outpath` reduced to its filename
part: `doc_link.split('/')[-1]` (outpaths are modelled relative to the
constant output directory). -/
def fnameOf (link : String) : String :=
  (splitOnStr link '/').getLastD link

/-! ## Reconciler: `get_best_matching_metadata` -/

/-- The six conjunctive conditions of the Reconciler's filter chain,
gathered into one predicate (the spec's description of the chain). -/
def matchesRow (row : DocumentRow) (m : CanonicalRecord) : Bool :=
  (m.Type' == row.extension) &&
  (m.Abbreviation == row.paper_type_abbreviation) &&
  (toString m.Number == stripLeadingZeros row.paper_number) &&
  strContains row.meeting m.Meeting_type &&
  pyEq (PyVal.intv m.Revision) row.paper_revision &&
  (getFnamesFromMetaDict m).contains row.filename

/-- The corpus records surviving all six filters. -/
def survivors (row : DocumentRow) (metadata : List CanonicalRecord) : List CanonicalRecord :=
  metadata.filter (matchesRow row)

/-- `add_document_features.get_best_matching_metadata`: the sequential
filter chain exactly as in the source, then the exact-one policy
(`len == 1` returns the survivor, `len > 1` and `len == 0` both return
the empty dict, modelled as `none`). -/
def getBestMatchingMetadata (row : DocumentRow) (metadata : List CanonicalRecord) :
    Option CanonicalRecord :=
  let meta := metadata.filter (fun m => m.Type' == row.extension)
  let meta := meta.filter (fun m => m.Abbreviation == row.paper_type_abbreviation)
  let meta := meta.filter (fun m => toString m.Number == stripLeadingZeros row.paper_number)
  let meta := meta.filter (fun m => strContains row.meeting m.Meeting_type)
  let meta := meta.filter (fun m => pyEq (PyVal.intv m.Revision) row.paper_revision)
  let meta := meta.filter (fun m => (getFnamesFromMetaDict m).contains row.filename)
  match meta with
  | [m] => some m
  | _ => none

/-- A corpus record and the artifact row parsed from its (revision 0)
English filename, used to exercise the reconciler theorems. -/
def recW : CanonicalRecord :=
  { Paper_id := 101, Name := "Paper W", Meeting_type := "ATCM", Meeting_number := "44",
    Abbreviation := "WP", Number := 7, Revision := 0, Type' := "pdf" }

/-- The artifact row for `recW`'s English variant. -/
def rowW : DocumentRow :=
  { filename := "ATCM44_WP007_e.pdf", extension := "pdf", meeting := "ATCM44",
    paper_type_abbreviation := "WP", paper_number := "007",
    paper_revision := PyVal.intv 0, paper_language_abbreviation := "e" }

/-! ## Filename parsing: `make_document_dataset.get_doc_df` -/

/-- The attribute-parsing part of `get_doc_df` for one filename:
`extension = split('.')[-1]`, `meeting = split('_')[0]`, abbreviation
and number as the first non-digit/digit runs of `split('_')[1]`,
language from the last underscore segment, and `paper_revision` the
*string* of digits of the first segment containing `rev` when `_rev`
occurs in the name, else the *int* `0`. Returns `none` for a name
without an underscore (where Python raises `IndexError` on
`split('_')[1]`). -/
def parseFilename (filename : String) : Option DocumentRow :=
  match splitOnStr filename '_' with
  | first :: second :: rest =>
    let usBits := first :: second :: rest
    let lang := (splitOnStr (usBits.getLastD filename) '.').headD ""
    let prev : PyVal :=
      if strContains filename "_rev" then
        let bits := usBits.filter (fun x => strContains x "rev")
        PyVal.strv (firstDigitRun (bits.headD ""))
      else PyVal.intv 0
    some { filename := filename,
           extension := (splitOnStr filename '.').getLastD filename,
           meeting := first,
           paper_type_abbreviation := firstNonDigitRun second,
           paper_number := firstDigitRun second,
           paper_revision := prev,
           paper_language_abbreviation := lang }
  | _ => none

/-- A record with `Revision = 2` whose derived filename carries a
`rev2` segment. -/
def recC2 : CanonicalRecord :=
  { Paper_id := 202, Name := "Paper with revision", Meeting_type := "ATCM",
    Meeting_number := "44", Abbreviation := "WP", Number := 7, Revision := 2, Type' := "pdf" }

/-- The row `get_doc_df` parses out of `recC2`'s English filename: note
`paper_revision` comes back as the string `"2"`. -/
def rowC2 : DocumentRow :=
  { filename := "ATCM44_WP007_rev2_e.pdf", extension := "pdf", meeting := "ATCM44",
    paper_type_abbreviation := "WP", paper_number := "007",
    paper_revision := PyVal.strv "2", paper_language_abbreviation := "e" }

/-! ## MetadataCrawler: listing crawl and snapshot loading -/

/-- One parsed response of the listing endpoint: its `payload` array of
records and its `pager.next` page number. -/
structure PageResp where
  payload : List CanonicalRecord
  next : Int
deriving DecidableEq, Repr

/-- `scrape_dataset.scrape_working_papers_listing` as a fuel-indexed
loop over a response oracle: append the current page's payload and
continue to `pager.next` only when it exceeds the current page;
`none` means the fuel ran out before the loop's own exit condition
fired. -/
def crawlAux (oracle : Int → PageResp) : Nat → Int → Option (List CanonicalRecord)
  | 0, _ => none
  | fuel + 1, p =>
    let d := oracle p
    if d.next > p then
      match crawlAux oracle fuel d.next with
      | some rest => some (d.payload ++ rest)
      | none => none
    else
      some d.payload

/-- A record used as concrete listing payload in the crawler and
snapshot examples. -/
def recA : CanonicalRecord :=
  { Paper_id := 1, Name := "Paper A", Meeting_type := "ATCM", Meeting_number := "43",
    Abbreviation := "WP", Number := 12, Revision := 0, Type' := "pdf" }

/-- An oracle whose page 3 reports `next = 2` (the spec's regression
scenario). -/
def pageOracleW : Int → PageResp :=
  fun q => if q == 3 then { payload := [recA], next := 2 } else { payload := [], next := 0 }

/-! ## Snapshot loading: `scrape_dataset.load_all_metadata` and the
`main` resumability decision -/

/-- Python `s.endswith(pat)`. -/
def strEndsWith (s pat : String) : Bool :=
  leadsWith pat.toList.reverse s.toList.reverse

/-- One file of the output directory as `load_all_metadata` sees it: its
name and, for the JSON snapshots, the record array it parses to. -/
structure DataFile where
  name : String
  records : List CanonicalRecord
deriving DecidableEq, Repr

/-- `scrape_dataset.load_all_metadata`: keep the `.json` files whose
name contains `papers_metadata` and concatenate their record arrays in
order (`papers += metadata`). The function then computes a deduplicated
list (`dedupe = [json.loads(i) for i in set(json.dumps(p, sort_keys=True)
for p in papers)]`) but returns `papers`, not `dedupe`. -/
def loadAllMetadata (files : List DataFile) : List CanonicalRecord :=
  (((files.filter (fun f => strEndsWith f.name ".json")).filter
      (fun f => strContains f.name "papers_metadata")).map (fun f => f.records)).flatten

/-- The `dedupe` expression of `load_all_metadata`: one representative
per distinct canonical (key-sorted JSON) serialization — serialization
is injective on records, so this is one representative per distinct
record (the Python set's iteration order is modelled as first
occurrence). -/
def dedupeMetadata (papers : List CanonicalRecord) : List CanonicalRecord :=
  papers.eraseDups

/-- The first snapshot file of the duplicate-record scenario. -/
def snapFileA : DataFile :=
  { name := "2021-01-01-00-00-00_papers_metadata.json", records := [recA] }

/-- The second snapshot file, holding the same record again. -/
def snapFileB : DataFile :=
  { name := "2021-02-02-00-00-00_papers_metadata.json", records := [recA] }

/-- An output directory holding two metadata snapshots that share one
record. -/
def snapshotFiles : List DataFile := [snapFileA, snapFileB]

/-- The metadata phase of `scrape_dataset.main`: use the loaded records
when any exist, otherwise run the fresh listing crawl (and write a
snapshot). The boolean records whether the fresh crawl ran and a new
snapshot file was written. -/
def mainMetadataPhase (loaded crawled : List CanonicalRecord) :
    Bool × List CanonicalRecord :=
  if loaded.isEmpty then (true, crawled) else (false, loaded)

/-! ## DocumentFetcher: per-variant fetch, per-record fetch, batch driver -/

/-- The transport outcome of one `requests.get` of a document link: a
timeout, a non-timeout transport error, or a response with its `ok`
status flag and body bytes. -/
inductive FetchResult where
  | timeout
  | err
  | resp (ok : Bool) (content : List Nat)
deriving DecidableEq, Repr

/-- `scrape_dataset.scrape_document_from_link`: a timeout is caught and
logged (the function falls through, returning `None`); any other
transport error propagates (`Except.error`); on a response the body is
returned when `r.ok` and `None` otherwise. -/
def fetchVariant (oracle : String → FetchResult) (link : String) :
    Except Unit (Option (List Nat)) :=
  match oracle link with
  | FetchResult.timeout => Except.ok none
  | FetchResult.err => Except.error ()
  | FetchResult.resp ok content =>
    if ok then Except.ok (some content) else Except.ok none

/-- Python truthiness of `raw_doc` in `scrape_documents` (`if raw_doc:`):
false for `None` and for empty bytes. -/
def pyTruthyBytes : Option (List Nat) → Bool
  | some c => !c.isEmpty
  | none => false

/-- The fetch loop of `scrape_documents` over the (already filtered)
document links: fetch each variant in order, write the file (its name)
when the result is truthy, propagate any non-timeout transport error.
Returns the requested links and the written filenames. -/
def fetchLoop (oracle : String → FetchResult) :
    List String → Except Unit (List String × List String)
  | [] => Except.ok ([], [])
  | l :: rest =>
    match fetchVariant oracle l with
    | Except.error e => Except.error e
    | Except.ok content =>
      match fetchLoop oracle rest with
      | Except.error e => Except.error e
      | Except.ok (reqs, written) =>
        Except.ok (l :: reqs,
          if pyTruthyBytes content then fnameOf l :: written else written)

/-- `scrape_dataset.scrape_documents`: construct the four links; with
`ignore_existing` (the default) drop every link whose output filename is
already in the directory listing, before any request; then run the
fetch loop. -/
def scrapeDocuments (oracle : String → FetchResult) (wp : CanonicalRecord)
    (existing : List String) (ignoreExisting : Bool) :
    Except Unit (List String × List String) :=
  let docLinks := constructDocumentLinks wp
  let docLinks :=
    if ignoreExisting then
      docLinks.filter (fun l => !(existing.contains (fnameOf l)))
    else docLinks
  fetchLoop oracle docLinks

/-- The all-404 oracle: every request completes with a non-success
status and an empty body. -/
def oracle404 : String → FetchResult := fun _ => FetchResult.resp false []

/-- The all-success oracle: every request returns a one-byte body with a
success status. -/
def oracleOk : String → FetchResult := fun _ => FetchResult.resp true [1]

/-- The four links of `recW` and the filenames the all-success oracle
writes for them. -/
def linksW : List String := constructDocumentLinks recW

/-- The filenames written for `linksW` under `oracleOk`. -/
def writtenW : List String := linksW.map fnameOf

/-- An oracle that times out on link `"t"` and raises a non-timeout
transport error on every other link. -/
def oracleTE : String → FetchResult :=
  fun s => if s == "t" then FetchResult.timeout else FetchResult.err

/-- The batch driver loop of `scrape_dataset.main`: for each paper in
the (already shuffled) list, try `scrape_documents`; a raised exception
is caught, logged and the driver moves to the next record; a successful
fetch extends the directory listing with the written files. Returns the
final listing and one outcome flag per attempted record. -/
def runBatch (oracle : String → FetchResult) :
    List CanonicalRecord → List String → List String × List Bool
  | [], existing => (existing, [])
  | p :: rest, existing =>
    match scrapeDocuments oracle p existing true with
    | Except.ok pr =>
      let r := runBatch oracle rest (existing ++ pr.2)
      (r.1, true :: r.2)
    | Except.error _ =>
      let r := runBatch oracle rest existing
      (r.1, false :: r.2)

/-! ## MeasureCrawler: `scrape_measures_dataset` -/

/-- Python `s.replace(old, new)` on char lists, with the list length as
structural fuel (each step consumes at least one character; the
patterns used are non-empty). -/
def replaceFuel (old new : List Char) : Nat → List Char → List Char
  | 0, l => l
  | _ + 1, [] => []
  | fuel + 1, c :: rest =>
    if !old.isEmpty && leadsWith old (c :: rest) then
      new ++ replaceFuel old new fuel (List.drop (old.length - 1) rest)
    else c :: replaceFuel old new fuel rest

/-- Python `s.replace(old, new)` for non-empty `old`. -/
def pyReplace (s old new : String) : String :=
  String.mk (replaceFuel old.toList new.toList s.toList.length s.toList)

/-- Python `s.strip()`: drop leading and trailing whitespace. -/
def pyStrip (s : String) : String :=
  String.mk (((s.toList.dropWhile Char.isWhitespace).reverse.dropWhile
    Char.isWhitespace).reverse)

/-- Python `s.lower().replace(' ', '_')` (the characteristics-label
normalization). -/
def normalizeLabel (t : String) : String :=
  String.mk (t.toList.map (fun c =>
    let lc := c.toLower
    if lc == ' ' then '_' else lc))

/-- The Python exceptions the measure scraper can raise on a degenerate
page: `[0]` on an empty result list, `.text` on `None`. -/
inductive PyErr where
  | indexError
  | attributeError
deriving DecidableEq, Repr

/-- One `tr` of the approvals table: its `th` (country) and `td` (date)
cells as already-stripped text, `none` when the cell is absent (or
empty, which BeautifulSoup treats as falsy too). -/
structure ApprovalRow where
  country : Option String
  date : Option String
deriving DecidableEq, Repr

/-- One `li.characteristics__item`: its `h2` title text (`none` when
the `h2` is missing) and its `p` text. -/
structure CharItem where
  title : Option String
  text : Option String
deriving DecidableEq, Repr

/-- A parsed measure page, holding the fragments the four extractors
look up: the `h1.title` texts, the first `table.approvals` (if any),
the serialized `div.text-container` nodes, and the
`ul.characteristics__list` nodes. -/
structure Soup where
  titles : List String
  approvalsTable : Option (List ApprovalRow)
  textContainers : List String
  charLists : List (List CharItem)
deriving DecidableEq, Repr

/-- The record `scrape_measure` builds for a successfully fetched
page. -/
structure MeasureInfo where
  raw_title : String
  raw_text : Option String
  characteristics : List (String × String)
  approvals : List (String × String)
deriving DecidableEq, Repr

/-- `get_approvals_from_scrape`: no table yields `[]`; rows lacking a
country or a date cell are skipped. -/
def getApprovalsFromScrape (soup : Soup) : List (String × String) :=
  match soup.approvalsTable with
  | none => []
  | some rows =>
    rows.filterMap (fun tr =>
      match tr.country, tr.date with
      | some c, some d => some (c, d)
      | _, _ => none)

/-- `get_body_text_from_scrape`: `None` when no `text-container` is
present; otherwise the first container's serialization with `<br/>`
turned into newlines, the wrapping markup stripped and the result
whitespace-stripped. -/
def getBodyTextFromScrape (soup : Soup) : Option String :=
  match soup.textContainers with
  | [] => none
  | t :: _ =>
    some (pyStrip (pyReplace (pyReplace (pyReplace t "<br/>" "\n") "</div>" "")
      "<div class=\"text-container\">" ""))

/-- Python dict assignment `d[k] = v`: overwrite in place, else append
(insertion order preserved). -/
def dictInsert : List (String × String) → String → String → List (String × String)
  | [], k, v => [(k, v)]
  | (k', v') :: rest, k, v =>
    if k' == k then (k', v) :: rest else (k', v') :: dictInsert rest k v

/-- `get_characteristics_from_scrape`: index `[0]` into the
`characteristics__list` nodes (IndexError when none), read each item's
`h2` title (`.text` on `None` raises AttributeError when absent), then
build the dict of normalized label to text, dropping falsy texts. -/
def getCharacteristicsFromScrape (soup : Soup) : Except PyErr (List (String × String)) :=
  match soup.charLists with
  | [] => Except.error PyErr.indexError
  | items :: _ =>
    match items.mapM (fun it =>
        match it.title with
        | none => Except.error PyErr.attributeError
        | some t => Except.ok (t, it.text)) with
    | Except.error e => Except.error e
    | Except.ok pairs =>
      Except.ok (pairs.foldl (fun d pr =>
        match pr.2 with
        | some v => if v ≠ "" then dictInsert d (normalizeLabel pr.1) v else d
        | none => d) [])

/-- `scrape_measure` for an already-completed request: a non-success
status returns `None` (no record); on success the title is
`find_all('h1', 'title')[0].text` (IndexError when the heading is
missing), then the info dict is built from the three extractors. -/
def scrapeMeasure (ok : Bool) (soup : Soup) : Except PyErr (Option MeasureInfo) :=
  if ok then
    match soup.titles with
    | [] => Except.error PyErr.indexError
    | t :: _ =>
      match getCharacteristicsFromScrape soup with
      | Except.error e => Except.error e
      | Except.ok chars =>
        Except.ok (some { raw_title := t,
                          raw_text := getBodyTextFromScrape soup,
                          characteristics := chars,
                          approvals := getApprovalsFromScrape soup })
  else Except.ok none

/-- A successfully fetched page that lacks the title heading but has
every other fragment. -/
def soupNoTitle : Soup :=
  { titles := [],
    approvalsTable := some [{ country := some "France", date := some "14 Jan 1998" }],
    textContainers := ["some text"],
    charLists := [[{ title := some "Type", text := some "Measure" }]] }

/-- A successfully fetched page that lacks the characteristics list but
has every other fragment. -/
def soupNoCharList : Soup :=
  { titles := ["Measure 1 (2001)"],
    approvalsTable := some [],
    textContainers := ["some text"],
    charLists := [] }

/-- A page with a title and characteristics but neither approvals table
nor text container. -/
def soupW : Soup :=
  { titles := ["Measure 1 (2001)"],
    approvalsTable := none,
    textContainers := [],
    charLists := [[{ title := some "Type", text := some "Measure" }]] }

/-! ## Theorems -/
/-- The sequential filter chain computes exactly the conjunctive
survivor set. -/
theorem getBestMatchingMetadata_eq_survivors (row : DocumentRow)
    (metadata : List CanonicalRecord) :
    getBestMatchingMetadata row metadata =
      match survivors row metadata with
      | [m] => some m
      | _ => none := by
  unfold getBestMatchingMetadata survivors
  simp only [List.filter_filter]
  congr 1
  apply List.filter_congr
  intro m _
  unfold matchesRow
  cases h1 : m.Type' == row.extension <;>
    cases h2 : m.Abbreviation == row.paper_type_abbreviation <;>
    cases h3 : toString m.Number == stripLeadingZeros row.paper_number <;>
    cases h4 : strContains row.meeting m.Meeting_type <;>
    cases h5 : pyEq (PyVal.intv m.Revision) row.paper_revision <;>
    cases h6 : (getFnamesFromMetaDict m).contains row.filename <;>
    simp [h1, h2, h3, h4, h5, h6]

/-- C1. Reconciler exact-one resolution: `get_best_matching_metadata`
returns a record exactly when a single corpus record survives all six
conjunctive filters, in which case it returns that survivor; with zero
or two-or-more survivors it returns the unresolved empty result
(modelled `none`), never a pick among the survivors. -/
theorem c1_reconciler_exact_one (row : DocumentRow) (corpus : List CanonicalRecord) :
    (∀ m : CanonicalRecord,
        getBestMatchingMetadata row corpus = some m ↔ survivors row corpus = [m]) ∧
    ((survivors row corpus).length ≠ 1 → getBestMatchingMetadata row corpus = none) ∧
    ((getBestMatchingMetadata row corpus).isSome ↔ (survivors row corpus).length = 1) := by
  simp only [getBestMatchingMetadata_eq_survivors]
  cases h : survivors row corpus with
  | nil => simp
  | cons a t =>
    cases t with
    | nil => simp
    | cons b t2 => simp

/-- Witness for C1: on a one-record corpus whose record survives all six
filters, `get_best_matching_metadata` returns exactly that record. -/
theorem c1_reconciler_exact_one_witness :
    getBestMatchingMetadata rowW [recW] = some recW :=
  ((c1_reconciler_exact_one rowW [recW]).1 recW).mpr (by decide)

/-- C2. The naming round trip fails for every positive revision: the
filename `ATCM44_WP007_rev2_e.pdf` is derivable from `recC2`, parsing
it yields `paper_revision` as the *string* `"2"`, and the reconciler's
revision filter compares the integer `2` with that string (Python `==`
across types is `False`), so the filter chain over the one-record corpus
`[recC2]` returns unresolved instead of `recC2`. -/
theorem c2_revision_roundtrip_fails :
    ("ATCM44_WP007_rev2_e.pdf" ∈ getFnamesFromMetaDict recC2) ∧
    parseFilename "ATCM44_WP007_rev2_e.pdf" = some rowC2 ∧
    rowC2.paper_revision = PyVal.strv "2" ∧
    getBestMatchingMetadata rowC2 [recC2] = none := by
  refine ⟨by decide, by decide, rfl, by decide⟩

/-- Unfolding of one continuing crawl step (`pager.next` beyond the
current page). -/
theorem crawlAux_continue (oracle : Int → PageResp) (fuel : Nat) (p : Int)
    (h : (oracle p).next > p) :
    crawlAux oracle (fuel + 1) p =
      match crawlAux oracle fuel ((oracle p).next) with
      | some rest => some ((oracle p).payload ++ rest)
      | none => none := by
  simp only [crawlAux, h, if_true]

/-- Unfolding of a terminating crawl step (`pager.next` not beyond the
current page). -/
theorem crawlAux_stop (oracle : Int → PageResp) (fuel : Nat) (p : Int)
    (h : ¬ (oracle p).next > p) :
    crawlAux oracle (fuel + 1) p = some (oracle p).payload := by
  simp only [crawlAux, h, if_false]

/-- A crawl that completes within `f` steps of fuel completes, with the
same result, within any larger fuel. -/
theorem crawlAux_mono (oracle : Int → PageResp) :
    ∀ (f f' : Nat) (p : Int) (xs : List CanonicalRecord),
      f ≤ f' → crawlAux oracle f p = some xs → crawlAux oracle f' p = some xs := by
  intro f
  induction f with
  | zero => intro f' p xs _ h; simp [crawlAux] at h
  | succ k ih =>
    intro f' p xs hle h
    cases f' with
    | zero => exact absurd hle (by omega)
    | succ k' =>
      have hk : k ≤ k' := by omega
      by_cases hc : (oracle p).next > p
      · rw [crawlAux_continue oracle k p hc] at h
        rw [crawlAux_continue oracle k' p hc]
        cases hrec : crawlAux oracle k ((oracle p).next) with
        | none => rw [hrec] at h; exact absurd h (by simp)
        | some rest =>
          rw [hrec] at h
          rw [ih k' ((oracle p).next) rest hk hrec]
          exact h
      · rw [crawlAux_stop oracle k p hc] at h
        rw [crawlAux_stop oracle k' p hc]
        exact h

/-- When every reported `pager.next` is bounded by `B`, the crawl from
`p` completes within `(B - p).toNat + 1` pages: each continuation
strictly increases the page, so the strictly increasing page chain is
finite. -/
theorem crawlAux_halts (oracle : Int → PageResp) (B : Int)
    (hB : ∀ q : Int, (oracle q).next ≤ B) :
    ∀ (n : Nat) (p : Int), (B - p).toNat ≤ n → (crawlAux oracle (n + 1) p).isSome := by
  intro n
  induction n with
  | zero =>
    intro p hp
    have hnp : ¬ (oracle p).next > p := by
      have := hB p
      omega
    simp [crawlAux, hnp]
  | succ k ih =>
    intro p hp
    by_cases hc : (oracle p).next > p
    · have hbp := hB p
      have hnext : (B - (oracle p).next).toNat ≤ k := by omega
      have hs := ih ((oracle p).next) hnext
      rw [crawlAux_continue oracle (k + 1) p hc]
      cases hrec : crawlAux oracle (k + 1) ((oracle p).next) with
      | none => rw [hrec] at hs; simp at hs
      | some rest => simp
    · rw [crawlAux_stop oracle (k + 1) p hc]
      simp

/-- C5. Pagination termination: after processing page `p` the crawl
continues to `pager.next` exactly when `next > p` (prepending `p`'s
payload), stops with just the accumulated payload when `next ≤ p`, and
for any oracle whose reported `next` values are bounded (so they cannot
increase strictly forever) the crawl halts with some finite fuel. -/
theorem c5_pagination_termination (oracle : Int → PageResp) (p : Int) :
    ((oracle p).next ≤ p →
        ∀ fuel : Nat, crawlAux oracle (fuel + 1) p = some (oracle p).payload) ∧
    ((oracle p).next > p →
        ∀ fuel : Nat, crawlAux oracle (fuel + 1) p =
          match crawlAux oracle fuel ((oracle p).next) with
          | some rest => some ((oracle p).payload ++ rest)
          | none => none) ∧
    (∀ B : Int, (∀ q : Int, (oracle q).next ≤ B) →
        ∃ fuel : Nat, (crawlAux oracle fuel p).isSome) := by
  refine ⟨?_, ?_, ?_⟩
  · intro h fuel
    have hnp : ¬ (oracle p).next > p := by omega
    simp [crawlAux, hnp]
  · intro h fuel
    simp [crawlAux, h]
  · intro B hB
    exact ⟨(B - p).toNat + 1, crawlAux_halts oracle B hB (B - p).toNat p (Nat.le_refl _)⟩

/-- Witness for C5: starting at page 3 with `pager.next = 2`, the crawl
stops after processing page 3, returning exactly page 3's payload. -/
theorem c5_pagination_termination_witness :
    crawlAux pageOracleW 1 3 = some [recA] :=
  ((c5_pagination_termination pageOracleW 3).1 (by decide) 0).trans (by decide)

/-- C3. Deduplication is computed but never applied: loading two
snapshot files sharing one record returns that record twice (the code
builds `dedupe`, whose value here is the singleton, yet returns the raw
accumulated `papers`), and the listing crawl likewise accumulates a
record appearing in two pages' payloads twice, with no deduplication at
all. -/
theorem c3_dedupe_not_applied :
    loadAllMetadata snapshotFiles = [recA, recA] ∧
    dedupeMetadata (loadAllMetadata snapshotFiles) = [recA] ∧
    crawlAux (fun _ => { payload := [recA], next := 2 }) 2 1 = some [recA, recA] := by
  refine ⟨by decide, by decide, by decide⟩

/-- C9. Resumability short-circuit: if the output directory holds at
least one `.json` file whose name contains `papers_metadata` with at
least one record, then `load_all_metadata` returns a non-empty list,
the fresh listing crawl is not invoked and no snapshot is written
(first component `false`), and the document-fetch phase runs over the
loaded records. -/
theorem c9_resumability (files : List DataFile) (crawled : List CanonicalRecord)
    (f : DataFile) (hf : f ∈ files) (hjson : strEndsWith f.name ".json" = true)
    (hmeta : strContains f.name "papers_metadata" = true) (hne : f.records ≠ []) :
    loadAllMetadata files ≠ [] ∧
    mainMetadataPhase (loadAllMetadata files) crawled = (false, loadAllMetadata files) := by
  have hf1 : f ∈ files.filter (fun f => strEndsWith f.name ".json") :=
    List.mem_filter.mpr ⟨hf, hjson⟩
  have hf2 : f ∈ (files.filter (fun f => strEndsWith f.name ".json")).filter
      (fun f => strContains f.name "papers_metadata") :=
    List.mem_filter.mpr ⟨hf1, hmeta⟩
  obtain ⟨x, hx⟩ := List.exists_mem_of_ne_nil f.records hne
  have hxl : x ∈ loadAllMetadata files := by
    unfold loadAllMetadata
    exact List.mem_flatten.mpr ⟨f.records, List.mem_map.mpr ⟨f, hf2, rfl⟩, hx⟩
  have hnonempty : loadAllMetadata files ≠ [] := by
    intro h0
    rw [h0] at hxl
    exact (List.not_mem_nil x) hxl
  refine ⟨hnonempty, ?_⟩
  cases hl : loadAllMetadata files with
  | nil => exact absurd hl hnonempty
  | cons a t => simp [mainMetadataPhase]

/-- Witness for C9: with the two-snapshot directory of the C3 scenario,
the loaded list is non-empty, the crawl is skipped and the loaded
records are used. -/
theorem c9_resumability_witness :
    loadAllMetadata snapshotFiles ≠ [] ∧
    mainMetadataPhase (loadAllMetadata snapshotFiles) [] =
      (false, loadAllMetadata snapshotFiles) :=
  c9_resumability snapshotFiles [] snapFileA (by decide) (by decide) (by decide) (by decide)

/-- Step equation of `fetchLoop` on a non-empty link list. -/
theorem fetchLoop_cons (oracle : String → FetchResult) (l : String) (rest : List String) :
    fetchLoop oracle (l :: rest) =
      match fetchVariant oracle l with
      | Except.error e => Except.error e
      | Except.ok content =>
        match fetchLoop oracle rest with
        | Except.error e => Except.error e
        | Except.ok (reqs, written) =>
          Except.ok (l :: reqs,
            if pyTruthyBytes content then fnameOf l :: written else written) := rfl

/-- A successful fetch loop requested exactly the links it was given. -/
theorem fetchLoop_ok_reqs (oracle : String → FetchResult) :
    ∀ (links reqs written : List String),
      fetchLoop oracle links = Except.ok (reqs, written) → reqs = links := by
  intro links
  induction links with
  | nil =>
    intro reqs written h
    simp only [fetchLoop] at h
    cases h
    rfl
  | cons l rest ih =>
    intro reqs written h
    unfold fetchLoop at h
    cases hv : fetchVariant oracle l with
    | error e => rw [hv] at h; exact absurd h (by simp)
    | ok content =>
      rw [hv] at h
      cases hr : fetchLoop oracle rest with
      | error e => rw [hr] at h; exact absurd h (by simp)
      | ok pr =>
        obtain ⟨r, w⟩ := pr
        rw [hr] at h
        cases h
        exact congrArg (l :: ·) (ih r w hr)

/-- Every filename a successful fetch loop writes comes from a link of
its input whose response had a success status and a non-empty body. -/
theorem fetchLoop_written_sound (oracle : String → FetchResult) :
    ∀ (links reqs written : List String),
      fetchLoop oracle links = Except.ok (reqs, written) →
      ∀ f ∈ written, ∃ l2 ∈ links, fnameOf l2 = f ∧
        ∃ c, oracle l2 = FetchResult.resp true c ∧ c ≠ [] := by
  intro links
  induction links with
  | nil =>
    intro reqs written h f hf
    simp only [fetchLoop] at h
    cases h
    cases hf
  | cons l rest ih =>
    intro reqs written h f hf
    unfold fetchLoop at h
    cases hv : fetchVariant oracle l with
    | error e => rw [hv] at h; exact absurd h (by simp)
    | ok content =>
      rw [hv] at h
      cases hr : fetchLoop oracle rest with
      | error e => rw [hr] at h; exact absurd h (by simp)
      | ok pr =>
        obtain ⟨r, w⟩ := pr
        rw [hr] at h
        cases h
        by_cases ht : pyTruthyBytes content = true
        · rw [if_pos ht] at hf
          cases hf with
          | head =>
            cases ho : oracle l with
            | timeout =>
              simp only [fetchVariant, ho] at hv
              cases hv
              cases ht
            | err =>
              simp only [fetchVariant, ho] at hv
              exact absurd hv (by simp)
            | resp b c =>
              cases b with
              | false =>
                simp only [fetchVariant, ho, if_neg] at hv
                cases hv
                cases ht
              | true =>
                simp only [fetchVariant, ho, if_pos] at hv
                cases hv
                refine ⟨l, List.mem_cons_self l rest, rfl, c, ho, ?_⟩
                intro hc
                rw [hc] at ht
                simp [pyTruthyBytes] at ht
          | tail _ hf' =>
            obtain ⟨l2, hl2, hfn, c, hoc, hc⟩ := ih r w hr f hf'
            exact ⟨l2, List.mem_cons_of_mem l hl2, hfn, c, hoc, hc⟩
        · rw [if_neg ht] at hf
          obtain ⟨l2, hl2, hfn, c, hoc, hc⟩ := ih r w hr f hf
          exact ⟨l2, List.mem_cons_of_mem l hl2, hfn, c, hoc, hc⟩

/-- `xs.contains x = true` is membership (strings have lawful `==`). -/
theorem contains_true_iff (xs : List String) (x : String) :
    xs.contains x = true ↔ x ∈ xs := by
  simp [List.contains]

/-- `xs.contains x = false` is non-membership. -/
theorem contains_false_iff (xs : List String) (x : String) :
    xs.contains x = false ↔ x ∉ xs := by
  simp [List.contains]

/-- C4 (amended). With `ignore_existing` (the default), every requested
link's output filename was absent from the directory before the run —
variants whose output path already exists are filtered out before any
request — and consequently a second invocation against the directory
extended by the first run's written files issues zero requests (and
writes nothing) *provided the first run wrote a file for every link it
requested*. -/
theorem c4_skip_existing_idempotence (oracle oracle2 : String → FetchResult)
    (wp : CanonicalRecord) (existing : List String) (reqs written : List String)
    (hrun : scrapeDocuments oracle wp existing true = Except.ok (reqs, written)) :
    (∀ l ∈ reqs, existing.contains (fnameOf l) = false) ∧
    ((∀ l ∈ reqs, written.contains (fnameOf l) = true) →
      scrapeDocuments oracle2 wp (existing ++ written) true = Except.ok ([], [])) := by
  have hrun' : fetchLoop oracle ((constructDocumentLinks wp).filter
      (fun l => !(existing.contains (fnameOf l)))) = Except.ok (reqs, written) := hrun
  have hreqs : reqs = (constructDocumentLinks wp).filter
      (fun l => !(existing.contains (fnameOf l))) :=
    fetchLoop_ok_reqs oracle _ reqs written hrun'
  constructor
  · intro l hl
    rw [hreqs] at hl
    have h2 := (List.mem_filter.mp hl).2
    simp only [Bool.not_eq_true'] at h2
    exact h2
  · intro hcov
    have hfilter : (constructDocumentLinks wp).filter
        (fun l => !((existing ++ written).contains (fnameOf l))) = [] := by
      rw [List.filter_eq_nil_iff]
      intro l hl
      simp only [Bool.not_eq_true']
      rw [contains_false_iff]
      intro hnotmem
      apply hnotmem
      by_cases he : fnameOf l ∈ existing
      · exact List.mem_append.mpr (Or.inl he)
      · have hlr : l ∈ reqs := by
          rw [hreqs]
          refine List.mem_filter.mpr ⟨hl, ?_⟩
          simp only [Bool.not_eq_true']
          rw [contains_false_iff]
          exact he
        have hw := hcov l hlr
        rw [contains_true_iff] at hw
        exact List.mem_append.mpr (Or.inr hw)
    show fetchLoop oracle2 ((constructDocumentLinks wp).filter
        (fun l => !((existing ++ written).contains (fnameOf l)))) = Except.ok ([], [])
    rw [hfilter]
    rfl

/-- Counterexample for C4 as stated: against the all-404 oracle the
first invocation on an empty directory requests all four variants and
writes nothing, so the directory is unchanged and the second invocation
(the identical call, shown with the explicitly appended — empty —
written list) again issues 4 requests, not zero. -/
theorem c4_idempotence_counterexample :
    scrapeDocuments oracle404 recW [] true
      = Except.ok (constructDocumentLinks recW, []) ∧
    scrapeDocuments oracle404 recW ([] ++ ([] : List String)) true
      = Except.ok (constructDocumentLinks recW, []) ∧
    (constructDocumentLinks recW).length = 4 := by
  refine ⟨by rfl, by rfl, by rfl⟩

/-- Witness for C4 (amended): after a first run that wrote all four
files, the second invocation issues zero requests and writes nothing. -/
theorem c4_skip_existing_idempotence_witness :
    scrapeDocuments oracleOk recW ([] ++ writtenW) true = Except.ok ([], []) :=
  (c4_skip_existing_idempotence oracleOk oracleOk recW [] linksW writtenW (by rfl)).2
    (by decide)

/-- C7. Timeout locality: a timeout on one variant makes the
per-variant fetch return no content without raising, and the per-record
loop simply records the request and moves on with nothing written; a
non-timeout transport error makes the per-variant fetch raise, and the
error propagates out of the per-record loop to the caller. -/
theorem c7_timeout_locality (oracle : String → FetchResult) (l : String)
    (rest : List String) :
    (oracle l = FetchResult.timeout →
      fetchVariant oracle l = Except.ok none ∧
      fetchLoop oracle (l :: rest) =
        (fetchLoop oracle rest).map (fun pr => (l :: pr.1, pr.2))) ∧
    (oracle l = FetchResult.err →
      fetchVariant oracle l = Except.error () ∧
      fetchLoop oracle (l :: rest) = Except.error ()) := by
  constructor
  · intro h
    have hv : fetchVariant oracle l = Except.ok none := by
      simp [fetchVariant, h]
    refine ⟨hv, ?_⟩
    rw [fetchLoop_cons, hv]
    cases fetchLoop oracle rest with
    | error e => rfl
    | ok pr =>
      obtain ⟨r, w⟩ := pr
      rfl
  · intro h
    have hv : fetchVariant oracle l = Except.error () := by
      simp [fetchVariant, h]
    refine ⟨hv, ?_⟩
    rw [fetchLoop_cons, hv]

/-- Witness for C7: under `oracleTE`, the timing-out variant returns no
content without raising and the loop continues past it, while the
erroring variant propagates out of the loop. -/
theorem c7_timeout_locality_witness :
    (fetchVariant oracleTE "t" = Except.ok none ∧
      fetchLoop oracleTE ["t"] = Except.ok (["t"], [])) ∧
    (fetchVariant oracleTE "x" = Except.error () ∧
      fetchLoop oracleTE ["x"] = Except.error ()) := by
  have h1 := (c7_timeout_locality oracleTE "t" []).1 (by rfl)
  have h2 := (c7_timeout_locality oracleTE "x" []).2 (by rfl)
  exact ⟨⟨h1.1, h1.2.trans (by rfl)⟩, ⟨h2.1, h2.2⟩⟩

/-- C8. Batch isolation: whatever the transport oracle does — including
raising on every record — the driver records exactly one outcome per
record of the (shuffled) input list: no record's failure aborts the
batch, every record is attempted. -/
theorem c8_batch_isolation (oracle : String → FetchResult)
    (papers : List CanonicalRecord) (existing : List String) :
    (runBatch oracle papers existing).2.length = papers.length := by
  induction papers generalizing existing with
  | nil => rfl
  | cons p rest ih =>
    unfold runBatch
    cases scrapeDocuments oracle p existing true with
    | ok pr => simp [ih]
    | error e => simp [ih]

/-- C10. Only non-empty bodies of success responses produce files: a
variant whose response has a non-success status, or a success status
with an empty body, yields a non-truthy fetch result (no exception),
the loop records the request, writes nothing for it and continues; and
every filename a successful per-record fetch writes stems from a link
whose response was a success with a non-empty body. -/
theorem c10_only_success_nonempty_written (oracle : String → FetchResult)
    (l : String) (rest links reqs written : List String) :
    (∀ (b : Bool) (c : List Nat), oracle l = FetchResult.resp b c →
      (b = false ∨ c = []) →
      fetchVariant oracle l = Except.ok (if b then some c else none) ∧
      pyTruthyBytes (if b then some c else none) = false ∧
      fetchLoop oracle (l :: rest) =
        (fetchLoop oracle rest).map (fun pr => (l :: pr.1, pr.2))) ∧
    (fetchLoop oracle links = Except.ok (reqs, written) →
      ∀ f ∈ written, ∃ l2 ∈ links, fnameOf l2 = f ∧
        ∃ c, oracle l2 = FetchResult.resp true c ∧ c ≠ []) := by
  constructor
  · intro b c h hdeg
    have hv : fetchVariant oracle l = Except.ok (if b then some c else none) := by
      cases b with
      | false => simp [fetchVariant, h]
      | true => simp [fetchVariant, h]
    have ht : pyTruthyBytes (if b then some c else none) = false := by
      cases b with
      | false => simp [pyTruthyBytes]
      | true =>
        rcases hdeg with hb | hc
        · cases hb
        · rw [hc]
          simp [pyTruthyBytes]
    refine ⟨hv, ht, ?_⟩
    rw [fetchLoop_cons, hv]
    cases fetchLoop oracle rest with
    | error e => rfl
    | ok pr =>
      obtain ⟨r, w⟩ := pr
      simp only [ht, Bool.false_eq_true, if_false]
      rfl
  · exact fetchLoop_written_sound oracle links reqs written

/-- Witness for C10: the all-404 oracle requests the variant but writes
nothing and raises nothing; under the all-success oracle the one
written file stems from a success response with a non-empty body. -/
theorem c10_only_success_nonempty_written_witness :
    fetchLoop oracle404 ["u"] = Except.ok (["u"], []) ∧
    (∃ l2 ∈ (["https://x/a"] : List String), fnameOf l2 = "a" ∧
      ∃ c, oracleOk l2 = FetchResult.resp true c ∧ c ≠ []) := by
  constructor
  · have h := ((c10_only_success_nonempty_written oracle404 "u" [] [] [] []).1
      false [] rfl (Or.inl rfl)).2.2
    exact h.trans (by rfl)
  · exact (c10_only_success_nonempty_written oracleOk "z" [] ["https://x/a"]
      ["https://x/a"] ["a"]).2 (by rfl) "a" (by decide)

/-- Counterexample for C6 as stated: on a success response, a page
lacking the title heading raises IndexError, and so does a page lacking
the characteristics list — the scrape does not degrade to a null/empty
field for these two fragments. -/
theorem c6_missing_fragment_counterexample :
    scrapeMeasure true soupNoTitle = Except.error PyErr.indexError ∧
    scrapeMeasure true soupNoCharList = Except.error PyErr.indexError :=
  ⟨rfl, rfl⟩

/-- C6 (amended). On a success response whose title heading is present
and whose characteristics parse without error, a page lacking the
approvals table yields `approvals = []` and a page lacking the text
container yields a null body text, and the scrape returns a record
rather than raising. -/
theorem c6_degradation_amended (soup : Soup) (t : String) (ts : List String)
    (chars : List (String × String))
    (htitle : soup.titles = t :: ts)
    (hch : getCharacteristicsFromScrape soup = Except.ok chars)
    (ha : soup.approvalsTable = none)
    (hb : soup.textContainers = []) :
    scrapeMeasure true soup = Except.ok (some
      { raw_title := t, raw_text := none, characteristics := chars, approvals := [] }) := by
  have h1 : getBodyTextFromScrape soup = none := by
    unfold getBodyTextFromScrape
    rw [hb]
  have h2 : getApprovalsFromScrape soup = [] := by
    unfold getApprovalsFromScrape
    rw [ha]
  simp only [scrapeMeasure, htitle, hch, h1, h2, if_true]

/-- Witness for C6 (amended): the degraded page still yields a full
record with empty approvals and null body text. -/
theorem c6_degradation_amended_witness :
    scrapeMeasure true soupW = Except.ok (some
      { raw_title := "Measure 1 (2001)", raw_text := none,
        characteristics := [("type", "Measure")], approvals := [] }) :=
  c6_degradation_amended soupW "Measure 1 (2001)" [] [("type", "Measure")]
    rfl (by rfl) rfl rfl
